import Mathlib

/-!
Verification of the brightness-mapping engine and proxy-entity logic of the
`normalize_lights` integration (files `engine.py`, `light.py`, `config_flow.py`).

Modelling notes on machine arithmetic.  The Python engine evaluates its two
interior formulas in IEEE-754 doubles and rounds with Python's `round`
(round-half-to-even).  Both formulas are modelled here by exact rational
arithmetic with round-half-to-even, which agrees with the float computation on
every reachable input:

* `virtual_to_actual` rounds `((v-1)/253)*(hi-lo)` with `v-1 ≤ 253` and
  `hi-lo ≤ 255`.  The exact value `(v-1)(hi-lo)/253` is never a half-integer
  (its doubled numerator `2(v-1)(hi-lo)` is even while an odd multiple of 253
  is odd), so the nearest tie point is at distance at least `1/506 ≈ 0.002`,
  while the accumulated float error is below `6e-14`.
* `actual_to_virtual` rounds `253*(a-lo)/span` with numerator at most
  `253*255 = 64515` (exactly representable) and quotient at most `253`.  When
  the exact quotient is a half-integer it is exactly representable, so IEEE
  division returns it exactly and Python's half-even tie-break applies; when it
  is not, it is at least `1/510` away from a tie, far above the float error.
* the `brightness_step_pct` handler truncates `255*(pct/100)` with `int()`;
  for integer `pct` the exact value `51*pct/20` is either an exact integer
  (reproduced exactly by the float computation, error below half an ulp) or at
  least `1/20` away from one, so float truncation equals exact truncation.
-/

/-- Round-half-to-even (Python `round`) of the rational `n / d`, for natural
`n` and positive `d`. -/
def pyRound (n d : Nat) : Nat :=
  if 2 * (n % d) < d then n / d
  else if d < 2 * (n % d) then n / d + 1
  else if (n / d) % 2 = 0 then n / d else n / d + 1

/-- `engine._clamp_0_255` on an integer input: `int(round(float(x)))` is the
identity on integers, then `max(0, min(255, x))`. -/
def clamp_0_255 (x : Int) : Nat := (max 0 (min 255 x)).toNat

/-- `engine._normalize_bounds`: default absent low to 0 and absent high to 255,
clamp each to `[0,255]`, and fall back to the full span `(0, 255)` whenever the
clamped high is at most the clamped low. -/
def normalize_bounds (llv hld : Option Int) : Nat × Nat :=
  let lo := match llv with
    | none => 0
    | some x => clamp_0_255 x
  let hi := match hld with
    | none => 255
    | some x => clamp_0_255 x
  if hi ≤ lo then (0, 255) else (lo, hi)

/-- `engine.virtual_to_actual`.  The interior branch has `1 ≤ v ≤ 254` and
resolved bounds `lo < hi`, so the natural subtractions `v - 1` and `hi - lo`
agree with the source's integer subtractions. -/
def virtual_to_actual (v : Int) (llv hld : Option Int) : Nat :=
  let v := clamp_0_255 v
  if v = 0 then 0
  else if v = 255 then 255
  else
    let p := normalize_bounds llv hld
    let a := p.1 + pyRound ((v - 1) * (p.2 - p.1)) 253
    clamp_0_255 (a : Int)

/-- `engine.actual_to_virtual`.  The `span = 0` branch mirrors the source's
(unreachable) `span <= 0` guard; `a_clamped - lo` is nonnegative because of the
`max`. -/
def actual_to_virtual (a : Int) (llv hld : Option Int) : Nat :=
  let a := clamp_0_255 a
  if a = 0 then 0
  else if 255 ≤ a then 255
  else
    let p := normalize_bounds llv hld
    let span := p.2 - p.1
    if span = 0 then a
    else
      let ac := max p.1 (min p.2 a)
      let v := 1 + pyRound (253 * (ac - p.1)) span
      clamp_0_255 (v : Int)

/-- The round trip `actual → virtual → actual` on a natural brightness value. -/
def round_trip (llv hld : Option Int) (a : Nat) : Nat :=
  virtual_to_actual (actual_to_virtual (a : Int) llv hld : Int) llv hld

/-- The rounded quotient is within one half of the exact quotient:
`|pyRound n d - n/d| ≤ 1/2`, stated without division. -/
theorem pyRound_half (n d : Nat) (hd : 0 < d) :
    2 * n ≤ 2 * (d * pyRound n d) + d ∧ 2 * (d * pyRound n d) ≤ 2 * n + d := by
  have hdm : d * (n / d) + n % d = n := Nat.div_add_mod n d
  have hrd : n % d < d := Nat.mod_lt n hd
  unfold pyRound
  split_ifs with h1 h2 h3 <;>
    (try simp only [Nat.mul_add, Nat.mul_one]) <;>
    omega

/-- Monotone upper bound for `pyRound`: if `n ≤ d * M` then the rounded
quotient is at most `M`. -/
theorem pyRound_le (n d M : Nat) (hd : 0 < d) (h : n ≤ d * M) :
    pyRound n d ≤ M := by
  have hb := (pyRound_half n d hd).2
  by_contra hc
  push_neg at hc
  have h1 : d * (M + 1) ≤ d * pyRound n d := Nat.mul_le_mul_left d hc
  simp only [Nat.mul_add, Nat.mul_one] at h1
  omega

theorem pyRound_zero (d : Nat) (hd : 0 < d) : pyRound 0 d = 0 := by
  unfold pyRound
  simp [Nat.zero_mod, Nat.zero_div, hd]

theorem pyRound_mul_right (d m : Nat) (hd : 0 < d) : pyRound (d * m) d = m := by
  unfold pyRound
  have h1 : d * m % d = 0 := Nat.mul_mod_right d m
  have h2 : d * m / d = m := Nat.mul_div_cancel_left m hd
  simp [h1, h2, hd]

theorem pyRound_mul_left (m d : Nat) (hd : 0 < d) : pyRound (m * d) d = m := by
  rw [Nat.mul_comm]
  exact pyRound_mul_right d m hd

theorem clamp_0_255_le (x : Int) : clamp_0_255 x ≤ 255 := by
  unfold clamp_0_255
  omega

theorem clamp_0_255_ofNat (n : Nat) : clamp_0_255 (n : Int) = min 255 n := by
  unfold clamp_0_255
  omega

theorem clamp_0_255_of_le (n : Nat) (h : n ≤ 255) :
    clamp_0_255 (n : Int) = n := by
  rw [clamp_0_255_ofNat]
  omega

/-- The resolved bounds always have a strictly positive span. -/
theorem normalize_bounds_lt (llv hld : Option Int) :
    (normalize_bounds llv hld).1 < (normalize_bounds llv hld).2 := by
  unfold normalize_bounds
  cases llv <;> cases hld <;> simp only [] <;> split_ifs <;> simp <;> omega

/-- The resolved high bound is at most 255 (hence so is the low bound). -/
theorem normalize_bounds_le (llv hld : Option Int) :
    (normalize_bounds llv hld).2 ≤ 255 := by
  unfold normalize_bounds
  cases llv <;> cases hld <;> simp only [] <;> split_ifs <;>
    simp [clamp_0_255_le]

/-- Unfolding of `virtual_to_actual` on an interior virtual value. -/
theorem v2a_interior (llv hld : Option Int) (v : Nat) (h1 : 0 < v) (h2 : v < 255) :
    virtual_to_actual (v : Int) llv hld =
      min 255 ((normalize_bounds llv hld).1 +
        pyRound ((v - 1) * ((normalize_bounds llv hld).2 - (normalize_bounds llv hld).1)) 253) := by
  have hc : clamp_0_255 (v : Int) = v := clamp_0_255_of_le v (by omega)
  simp only [virtual_to_actual, hc, clamp_0_255_ofNat]
  rw [if_neg (by omega), if_neg (by omega)]

/-- Unfolding of `actual_to_virtual` on an interior actual value. -/
theorem a2v_interior (llv hld : Option Int) (a : Nat) (h1 : 0 < a) (h2 : a < 255) :
    actual_to_virtual (a : Int) llv hld =
      min 255 (1 + pyRound
        (253 * (max (normalize_bounds llv hld).1 (min (normalize_bounds llv hld).2 a)
          - (normalize_bounds llv hld).1))
        ((normalize_bounds llv hld).2 - (normalize_bounds llv hld).1)) := by
  have hc : clamp_0_255 (a : Int) = a := clamp_0_255_of_le a (by omega)
  have hspan : ¬ ((normalize_bounds llv hld).2 - (normalize_bounds llv hld).1 = 0) := by
    have := normalize_bounds_lt llv hld
    omega
  simp only [actual_to_virtual, hc, clamp_0_255_ofNat]
  rw [if_neg (by omega), if_neg (by omega), if_neg hspan]

/-- On an interior virtual value the result stays inside the resolved bounds. -/
theorem v2a_in_bounds (llv hld : Option Int) (v : Nat) (h1 : 1 ≤ v) (h2 : v ≤ 254) :
    (normalize_bounds llv hld).1 ≤ virtual_to_actual (v : Int) llv hld ∧
      virtual_to_actual (v : Int) llv hld ≤ (normalize_bounds llv hld).2 := by
  have hlt := normalize_bounds_lt llv hld
  have hle := normalize_bounds_le llv hld
  rw [v2a_interior llv hld v (by omega) (by omega)]
  have hK : pyRound ((v - 1) * ((normalize_bounds llv hld).2 - (normalize_bounds llv hld).1)) 253
      ≤ (normalize_bounds llv hld).2 - (normalize_bounds llv hld).1 := by
    apply pyRound_le _ _ _ (by norm_num)
    have hv : v - 1 ≤ 253 := by omega
    exact Nat.mul_le_mul_right _ hv
  omega

/-- The lowest interior virtual step maps exactly to the resolved low bound. -/
theorem v2a_one (llv hld : Option Int) :
    virtual_to_actual 1 llv hld = (normalize_bounds llv hld).1 := by
  have hlt := normalize_bounds_lt llv hld
  have hle := normalize_bounds_le llv hld
  have h := v2a_interior llv hld 1 (by norm_num) (by norm_num)
  rw [Nat.cast_one] at h
  rw [h]
  simp only [Nat.sub_self, Nat.zero_mul, pyRound_zero 253 (by norm_num), Nat.add_zero]
  omega

/-- The highest interior virtual step maps exactly to the resolved high bound. -/
theorem v2a_top (llv hld : Option Int) :
    virtual_to_actual 254 llv hld = (normalize_bounds llv hld).2 := by
  have hlt := normalize_bounds_lt llv hld
  have hle := normalize_bounds_le llv hld
  have h := v2a_interior llv hld 254 (by norm_num) (by norm_num)
  rw [show ((254 : Nat) : Int) = (254 : Int) by norm_cast] at h
  rw [h]
  have h2 : (254 : Nat) - 1 = 253 := by norm_num
  rw [h2, pyRound_mul_right 253 _ (by norm_num)]
  omega

/-- Inverse-then-forward on an in-band actual value recovers it within ±1:
the two half-unit rounding errors combine to at most `253 + span ≤ 508`
five-hundred-and-sixths of a unit. -/
theorem round_trip_in_band (llv hld : Option Int) (a : Nat)
    (hlo : (normalize_bounds llv hld).1 ≤ a) (hhi : a ≤ (normalize_bounds llv hld).2) :
    round_trip llv hld a ≤ a + 1 ∧ a ≤ round_trip llv hld a + 1 := by
  have hlt := normalize_bounds_lt llv hld
  have hle := normalize_bounds_le llv hld
  set lo := (normalize_bounds llv hld).1 with hlo_def
  set hi := (normalize_bounds llv hld).2 with hhi_def
  by_cases ha0 : a = 0
  · subst ha0
    have hz : round_trip llv hld 0 = 0 := rfl
    omega
  by_cases ha255 : a = 255
  · subst ha255
    have hz : round_trip llv hld 255 = 255 := rfl
    omega
  have ha0' : 0 < a := by omega
  have ha255' : a < 255 := by omega
  have hspan : 0 < hi - lo := by omega
  have hA := a2v_interior llv hld a ha0' ha255'
  have hmax : max lo (min hi a) = a := by omega
  rw [hmax] at hA
  have hKle : pyRound (253 * (a - lo)) (hi - lo) ≤ 253 := by
    apply pyRound_le _ _ _ hspan
    rw [Nat.mul_comm 253 (a - lo)]
    exact Nat.mul_le_mul_right _ (by omega)
  set K := pyRound (253 * (a - lo)) (hi - lo) with hK_def
  have hvmin : min 255 (1 + K) = 1 + K := by omega
  rw [hvmin] at hA
  rw [round_trip, hA, v2a_interior llv hld (1 + K) (by omega) (by omega)]
  have h1K : 1 + K - 1 = K := by omega
  rw [h1K]
  have hAle : pyRound (K * (hi - lo)) 253 ≤ hi - lo := by
    apply pyRound_le _ _ _ (by norm_num)
    rw [Nat.mul_comm K (hi - lo)]
    rw [Nat.mul_comm 253 (hi - lo)]
    exact Nat.mul_le_mul_left _ hKle
  set A := pyRound (K * (hi - lo)) 253 with hA_def
  have B1 := pyRound_half (253 * (a - lo)) (hi - lo) hspan
  have B2 := pyRound_half (K * (hi - lo)) 253 (by norm_num)
  rw [← hK_def] at B1
  rw [← hA_def] at B2
  rw [Nat.mul_comm K (hi - lo)] at B2
  omega

/-- Inverse-then-forward on a positive actual value at or below the resolved
low bound lands exactly on the low bound. -/
theorem round_trip_low (llv hld : Option Int) (a : Nat)
    (h0 : 0 < a) (hlo : a ≤ (normalize_bounds llv hld).1) :
    round_trip llv hld a = (normalize_bounds llv hld).1 := by
  have hlt := normalize_bounds_lt llv hld
  have hle := normalize_bounds_le llv hld
  set lo := (normalize_bounds llv hld).1 with hlo_def
  set hi := (normalize_bounds llv hld).2 with hhi_def
  have hspan : 0 < hi - lo := by omega
  have hA := a2v_interior llv hld a h0 (by omega)
  have hmax : max lo (min hi a) = lo := by omega
  rw [hmax, Nat.sub_self, Nat.mul_zero, pyRound_zero _ hspan] at hA
  have hone : min 255 (1 + 0) = 1 := by omega
  rw [hone] at hA
  rw [round_trip, hA, Nat.cast_one, v2a_one]

/-- Inverse-then-forward on an actual value at or above the resolved high
bound (but below 255) lands exactly on the high bound. -/
theorem round_trip_high (llv hld : Option Int) (a : Nat)
    (hhi : (normalize_bounds llv hld).2 ≤ a) (h255 : a < 255) :
    round_trip llv hld a = (normalize_bounds llv hld).2 := by
  have hlt := normalize_bounds_lt llv hld
  have hle := normalize_bounds_le llv hld
  set lo := (normalize_bounds llv hld).1 with hlo_def
  set hi := (normalize_bounds llv hld).2 with hhi_def
  have hspan : 0 < hi - lo := by omega
  have hA := a2v_interior llv hld a (by omega) h255
  have hmax : max lo (min hi a) = hi := by omega
  rw [hmax, pyRound_mul_left _ _ hspan] at hA
  have htop : min 255 (1 + 253) = 254 := by omega
  rw [htop] at hA
  rw [round_trip, hA, show ((254 : Nat) : Int) = (254 : Int) by norm_cast, v2a_top]

/-- The optional fields of a `light.turn_on` service call that
`NormalizeProxyLight.async_turn_on` reads (`**kwargs`). -/
structure TurnOnKwargs where
  brightness : Option Int
  brightness_step : Option Int
  brightness_step_pct : Option Int
  transition : Option Int
  deriving DecidableEq

/-- The mutable state of a `NormalizeProxyLight` (`_attr_is_on` and
`_virtual_brightness`). -/
structure ProxyState where
  is_on : Bool
  virtual_brightness : Nat
  deriving DecidableEq

/-- A state snapshot of the target entity as seen by the proxy: its `state`
string and its optional `brightness` attribute. -/
structure TargetState where
  state : String
  brightness : Option Int
  deriving DecidableEq

/-- The observable actions performed by a command handler, in program order:
an outbound service call, a mutation of the local proxy state, and the
publication of the updated state (`async_write_ha_state`). -/
inductive ProxyEvent where
  | service_call (domain service : String) (brightness : Option Nat) (transition : Option Int)
  | set_local (is_on : Bool) (virtual_brightness : Nat)
  | write_state
  deriving DecidableEq

/-- `light._clamp` restricted to provided integers: `int(n or 0)` is the
identity on an integer argument, followed by `max(0, min(255, n))`; this
coincides with `engine._clamp_0_255`. -/
def light_clamp (n : Int) : Nat := clamp_0_255 n

/-- The virtual-brightness computation of `async_turn_on` (light.py lines
107-118): absolute `brightness` first, then `brightness_step` (which wins
over `brightness_step_pct`), else `brightness_step_pct` with
`step = int(255 * (pct / 100))`, a float truncation toward zero; for integer
`pct` this equals the exact truncated quotient `Int.tdiv (255 * pct) 100`. -/
def turn_on_v (s : ProxyState) (k : TurnOnKwargs) : Nat :=
  let v : Nat := s.virtual_brightness
  let v : Nat := match k.brightness with
    | some b => light_clamp b
    | none => v
  match k.brightness_step with
  | some st => light_clamp ((v : Int) + st)
  | none =>
    match k.brightness_step_pct with
    | some p => light_clamp ((v : Int) + Int.tdiv (255 * p) 100)
    | none => v

/-- The actual brightness sent by `async_turn_on`: the engine transform,
floored to 1 when it yields 0 ("ensure we turn the light on"). -/
def turn_on_a (llv hld : Option Int) (s : ProxyState) (k : TurnOnKwargs) : Nat :=
  let a := virtual_to_actual (turn_on_v s k : Int) llv hld
  if a = 0 then 1 else a

/-- `NormalizeProxyLight.async_turn_on`: returns the proxy state at return
time together with the trace of observable actions in program order — the
awaited `light.turn_on` service call comes first, then the optimistic local
update, then the state write.  `supports_brightness` reflects the
`supported_color_modes` check on the target state (lines 126-135). -/
def async_turn_on (llv hld : Option Int) (supports_brightness : Bool)
    (s : ProxyState) (k : TurnOnKwargs) : ProxyState × List ProxyEvent :=
  let v := turn_on_v s k
  let payload : Option Nat :=
    if supports_brightness then some (turn_on_a llv hld s k) else none
  ({ is_on := true, virtual_brightness := v },
   [ProxyEvent.service_call "light" "turn_on" payload k.transition,
    ProxyEvent.set_local true v,
    ProxyEvent.write_state])

/-- `NormalizeProxyLight.async_turn_off`: awaited `light.turn_off` call first,
then the local update to off / brightness 0, then the state write. -/
def async_turn_off (_s : ProxyState) (transition : Option Int) :
    ProxyState × List ProxyEvent :=
  ({ is_on := false, virtual_brightness := 0 },
   [ProxyEvent.service_call "light" "turn_off" none transition,
    ProxyEvent.set_local false 0,
    ProxyEvent.write_state])

/-- Python `str.lower`, restricted to ASCII case-mapping (sufficient for the
state strings compared here). -/
def str_lower (s : String) : String := ⟨s.data.map Char.toLower⟩

/-- `NormalizeProxyLight._apply_target_state` (the mirror handler body). -/
def apply_target_state (llv hld : Option Int) (_s : ProxyState)
    (t : TargetState) : ProxyState :=
  let is_on := str_lower t.state = "on"
  match t.brightness with
  | none => { is_on := is_on, virtual_brightness := if is_on then 255 else 0 }
  | some a => { is_on := is_on, virtual_brightness := actual_to_virtual a llv hld }

def is_set_local : ProxyEvent → Bool
  | ProxyEvent.set_local _ _ => true
  | _ => false

def is_service_call : ProxyEvent → Bool
  | ProxyEvent.service_call _ _ _ _ => true
  | _ => false

/-- "The local update happens before the outbound call": the first local
mutation in the trace comes strictly before the first service call. -/
def update_before_call (evs : List ProxyEvent) : Prop :=
  evs.findIdx is_set_local < evs.findIdx is_service_call

instance (evs : List ProxyEvent) : Decidable (update_before_call evs) := by
  unfold update_before_call
  infer_instance

/-- The Off-state invariant of the spec's two-state machine: when the proxy is
off its virtual brightness is 0. -/
def off_invariant (s : ProxyState) : Prop :=
  s.is_on = false → s.virtual_brightness = 0

/-- A transform that only depends on its input through `_clamp_0_255` is
unchanged by pre-clamping the input. -/
theorem v2a_clamp (v : Int) (llv hld : Option Int) :
    virtual_to_actual v llv hld =
      virtual_to_actual (clamp_0_255 v : Int) llv hld := by
  unfold virtual_to_actual
  rw [clamp_0_255_of_le _ (clamp_0_255_le v)]

/-- C1: for every virtual value `v` in `[1,254]` and any bounds pair, the
forward transform lands inside the resolved band `[lo, hi]`; in particular
`v = 1` maps to `lo`, `v = 254` maps to `hi`, and with bounds `{17, 238}` the
value `128` maps to `17 + round((127/253)*221) = 128`. -/
theorem C1_forward_in_band (v : Nat) (llv hld : Option Int)
    (h1 : 1 ≤ v) (h2 : v ≤ 254) :
    ((normalize_bounds llv hld).1 ≤ virtual_to_actual (v : Int) llv hld
      ∧ virtual_to_actual (v : Int) llv hld ≤ (normalize_bounds llv hld).2)
    ∧ virtual_to_actual 1 llv hld = (normalize_bounds llv hld).1
    ∧ virtual_to_actual 254 llv hld = (normalize_bounds llv hld).2
    ∧ virtual_to_actual 128 (some 17) (some 238) = 128 :=
  ⟨v2a_in_bounds llv hld v h1 h2, v2a_one llv hld, v2a_top llv hld, by decide⟩

/-- Witness for C1 at `v = 77`, bounds `{17, 238}`. -/
theorem C1_forward_in_band_witness :
    (((normalize_bounds (some 17) (some 238)).1 ≤
        virtual_to_actual ((77 : Nat) : Int) (some 17) (some 238)
      ∧ virtual_to_actual ((77 : Nat) : Int) (some 17) (some 238) ≤
        (normalize_bounds (some 17) (some 238)).2)
    ∧ virtual_to_actual 1 (some 17) (some 238) = (normalize_bounds (some 17) (some 238)).1
    ∧ virtual_to_actual 254 (some 17) (some 238) = (normalize_bounds (some 17) (some 238)).2
    ∧ virtual_to_actual 128 (some 17) (some 238) = 128) :=
  C1_forward_in_band 77 (some 17) (some 238) (by decide) (by decide)

/-- C2: both transforms preserve the domain extremes unconditionally:
`virtual_to_actual` fixes 0 and 255 for any bounds, and `actual_to_virtual`
maps 0 to 0 and any clamped value at least 255 to 255. -/
theorem C2_extremes (llv hld : Option Int) (a : Int) (h : 255 ≤ a) :
    virtual_to_actual 0 llv hld = 0
    ∧ virtual_to_actual 255 llv hld = 255
    ∧ actual_to_virtual 0 llv hld = 0
    ∧ actual_to_virtual a llv hld = 255 := by
  refine ⟨rfl, rfl, rfl, ?_⟩
  have hc : clamp_0_255 a = 255 := by
    unfold clamp_0_255
    omega
  simp [actual_to_virtual, hc]

/-- Witness for C2 at `a = 300`, bounds `{20, 230}`. -/
theorem C2_extremes_witness :
    virtual_to_actual 0 (some 20) (some 230) = 0
    ∧ virtual_to_actual 255 (some 20) (some 230) = 255
    ∧ actual_to_virtual 0 (some 20) (some 230) = 0
    ∧ actual_to_virtual 300 (some 20) (some 230) = 255 :=
  C2_extremes (some 20) (some 230) 300 (by decide)

/-- C3: for in-band actual values the clamped round trip
`virtual_to_actual ∘ actual_to_virtual` recovers the value within ±1; values
strictly between 0 and 255 but outside the band land exactly on the nearest
bound, and the round trip is exact (hence idempotent on repeat) at either
bound. -/
theorem C3_round_trip_policy (llv hld : Option Int) :
    (∀ a : Nat, (normalize_bounds llv hld).1 ≤ a → a ≤ (normalize_bounds llv hld).2 →
      round_trip llv hld a ≤ a + 1 ∧ a ≤ round_trip llv hld a + 1)
    ∧ (∀ a : Nat, 0 < a → a < (normalize_bounds llv hld).1 →
      round_trip llv hld a = (normalize_bounds llv hld).1)
    ∧ (∀ a : Nat, (normalize_bounds llv hld).2 < a → a < 255 →
      round_trip llv hld a = (normalize_bounds llv hld).2)
    ∧ round_trip llv hld (normalize_bounds llv hld).1 = (normalize_bounds llv hld).1
    ∧ round_trip llv hld (normalize_bounds llv hld).2 = (normalize_bounds llv hld).2 := by
  refine ⟨fun a ha1 ha2 => round_trip_in_band llv hld a ha1 ha2,
    fun a ha1 ha2 => round_trip_low llv hld a ha1 (by omega),
    fun a ha1 ha2 => round_trip_high llv hld a (by omega) ha2,
    ?_, ?_⟩
  · by_cases h : (normalize_bounds llv hld).1 = 0
    · rw [h]
      rfl
    · exact round_trip_low llv hld _ (by omega) le_rfl
  · by_cases h : (normalize_bounds llv hld).2 = 255
    · rw [h]
      rfl
    · have hle := normalize_bounds_le llv hld
      exact round_trip_high llv hld _ le_rfl (by omega)

/-- Witness for C3 with bounds `{20, 230}`: in-band `a = 100` round-trips
within ±1, the out-of-band `a = 5` lands on the low bound and `a = 240` on
the high bound. -/
theorem C3_round_trip_policy_witness :
    (round_trip (some 20) (some 230) 100 ≤ 100 + 1
      ∧ 100 ≤ round_trip (some 20) (some 230) 100 + 1)
    ∧ round_trip (some 20) (some 230) 5 = (normalize_bounds (some 20) (some 230)).1
    ∧ round_trip (some 20) (some 230) 240 = (normalize_bounds (some 20) (some 230)).2 := by
  have h := C3_round_trip_policy (some 20) (some 230)
  exact ⟨h.1 100 (by decide) (by decide),
    h.2.1 5 (by decide) (by decide),
    h.2.2.1 240 (by decide) (by decide)⟩

/-- C4: the resolved bounds always satisfy `lo < hi ≤ 255` (so the inverse
transform never divides by a non-positive span and both transforms are total),
absent inputs default to the full range, a clamped `high ≤ low` pair falls
back to `(0, 255)`, and with such degenerate bounds the forward transform
coincides with full-range `{0,255}` scaling. -/
theorem C4_resolve_bounds (llv hld : Option Int) (x y v : Int)
    (hdeg : clamp_0_255 y ≤ clamp_0_255 x) :
    (0 < (normalize_bounds llv hld).2 - (normalize_bounds llv hld).1
      ∧ (normalize_bounds llv hld).1 < (normalize_bounds llv hld).2
      ∧ (normalize_bounds llv hld).2 ≤ 255)
    ∧ normalize_bounds none none = (0, 255)
    ∧ normalize_bounds (some x) (some y) = (0, 255)
    ∧ virtual_to_actual v (some x) (some y) = virtual_to_actual v none none := by
  have hlt := normalize_bounds_lt llv hld
  have hle := normalize_bounds_le llv hld
  have hfall : normalize_bounds (some x) (some y) = (0, 255) := by
    unfold normalize_bounds
    rw [if_pos hdeg]
  have hnb : normalize_bounds (some x) (some y) = normalize_bounds none none := hfall
  refine ⟨⟨by omega, hlt, hle⟩, rfl, hfall, ?_⟩
  simp only [virtual_to_actual, hnb]

/-- Witness for C4 at degenerate raw bounds `low = 200, high = 100`. -/
theorem C4_resolve_bounds_witness :
    (0 < (normalize_bounds (some 200) (some 100)).2 - (normalize_bounds (some 200) (some 100)).1
      ∧ (normalize_bounds (some 200) (some 100)).1 < (normalize_bounds (some 200) (some 100)).2
      ∧ (normalize_bounds (some 200) (some 100)).2 ≤ 255)
    ∧ normalize_bounds none none = (0, 255)
    ∧ normalize_bounds (some 200) (some 100) = (0, 255)
    ∧ virtual_to_actual 77 (some 200) (some 100) = virtual_to_actual 77 none none :=
  C4_resolve_bounds (some 200) (some 100) 200 100 77 (by decide)

/-- C5 (counterexample): in the code the optimistic local update is NOT
applied before the outbound call — in both the `turn_on` and `turn_off`
traces the awaited service call strictly precedes the local-state mutation. -/
theorem C5_counterexample :
    ¬ update_before_call
      (async_turn_on (some 20) (some 230) true ⟨false, 0⟩ ⟨some 100, none, none, none⟩).2
    ∧ ¬ update_before_call (async_turn_off ⟨true, 5⟩ none).2 := by
  constructor <;> decide

/-- C5 (amended): for every `turn_on` and `turn_off` command the optimistic
local update (`isOn`/`virtualBrightness` set to their new values) is applied
after the awaited outbound call completes but before control returns to the
caller: the trace is exactly call, update, write, and the returned state
already carries the new values. -/
theorem C5_amended (llv hld : Option Int) (sb : Bool) (s : ProxyState)
    (k : TurnOnKwargs) (tr : Option Int) :
    (async_turn_on llv hld sb s k).2.findIdx is_service_call <
        (async_turn_on llv hld sb s k).2.findIdx is_set_local
    ∧ (async_turn_on llv hld sb s k).2.findIdx is_set_local <
        (async_turn_on llv hld sb s k).2.length
    ∧ (async_turn_on llv hld sb s k).1 = ⟨true, turn_on_v s k⟩
    ∧ (async_turn_off s tr).2.findIdx is_service_call <
        (async_turn_off s tr).2.findIdx is_set_local
    ∧ (async_turn_off s tr).1 = ⟨false, 0⟩ := by
  refine ⟨?_, ?_, rfl, ?_, rfl⟩
  · show (0 : Nat) < 1
    norm_num
  · show (1 : Nat) < 3
    norm_num
  · show (0 : Nat) < 1
    norm_num

/-- C6 (counterexample): the Off-state invariant is not preserved by the
mirror update: from the invariant-satisfying state `(off, 0)` a notification
reporting the target off with brightness attribute 5 (bounds `{20,230}`)
leaves the proxy off with virtual brightness 1. -/
theorem C6_counterexample :
    off_invariant ⟨false, 0⟩
    ∧ (apply_target_state (some 20) (some 230) ⟨false, 0⟩ ⟨"off", some 5⟩).is_on = false
    ∧ (apply_target_state (some 20) (some 230) ⟨false, 0⟩ ⟨"off", some 5⟩).virtual_brightness = 1
    ∧ ¬ off_invariant (apply_target_state (some 20) (some 230) ⟨false, 0⟩ ⟨"off", some 5⟩) := by
  refine ⟨fun _ => rfl, by decide, by decide, ?_⟩
  intro h
  exact absurd (h (by decide)) (by decide)

/-- C6 (amended): the Off-state invariant (`isOn = false →
virtualBrightness = 0`) is preserved by `turn_on`, by `turn_off`, and by a
mirror update whose notification reports the target on, carries no brightness
attribute, or carries a brightness clamping to 0; a mirror notification with
the target off and a positive brightness attribute escapes this (see the
counterexample). -/
theorem C6_amended (llv hld : Option Int) (sb : Bool) (s : ProxyState)
    (k : TurnOnKwargs) (tr : Option Int) (t : TargetState)
    (h : str_lower t.state = "on" ∨ t.brightness = none ∨
      ∃ b, t.brightness = some b ∧ b ≤ 0) :
    off_invariant (async_turn_on llv hld sb s k).1
    ∧ off_invariant (async_turn_off s tr).1
    ∧ off_invariant (apply_target_state llv hld s t) := by
  refine ⟨?_, fun _ => rfl, ?_⟩
  · intro hoff
    simp [async_turn_on] at hoff
  obtain ⟨st, br⟩ := t
  cases br with
  | none =>
    intro hoff
    simp only [apply_target_state] at hoff ⊢
    rw [if_neg (of_decide_eq_false hoff)]
  | some b =>
    rcases h with h1 | h2 | ⟨b', hb, hble⟩
    · intro hoff
      simp only [apply_target_state] at hoff
      rw [h1] at hoff
      simp at hoff
    · simp at h2
    · intro hoff
      simp only [apply_target_state]
      have hbb : b = b' := by
        injection hb
      subst hbb
      have hc : clamp_0_255 b = 0 := by
        unfold clamp_0_255
        omega
      simp [actual_to_virtual, hc]

/-- Witness for C6 (amended) at an off notification with no brightness. -/
theorem C6_amended_witness :
    off_invariant (async_turn_on (some 20) (some 230) true ⟨false, 0⟩ ⟨none, none, none, none⟩).1
    ∧ off_invariant (async_turn_off ⟨true, 42⟩ none).1
    ∧ off_invariant (apply_target_state (some 20) (some 230) ⟨true, 42⟩ ⟨"off", none⟩) :=
  C6_amended (some 20) (some 230) true ⟨false, 0⟩ ⟨none, none, none, none⟩ none
    ⟨"off", none⟩ (Or.inr (Or.inl rfl))

/-- C7 (counterexample): from the off state with bounds `{20,230}`,
`turn_on(brightness_step_pct=50)` does NOT end with virtual brightness 128:
the code truncates `int(255 * 50/100) = 127` instead of rounding to 128. -/
theorem C7_counterexample :
    ¬ ((async_turn_on (some 20) (some 230) true ⟨false, 0⟩
        ⟨none, none, some 50, none⟩).1.virtual_brightness = 128) := by
  decide

/-- C7 (amended): in that scenario the step is the truncation
`int(255*50/100) = 127`, the state ends on with virtual brightness 127, and
the outbound command carries brightness
`virtual_to_actual(127, {20,230}) = 125`. -/
theorem C7_amended :
    Int.tdiv (255 * 50) 100 = 127
    ∧ (async_turn_on (some 20) (some 230) true ⟨false, 0⟩
        ⟨none, none, some 50, none⟩).1 = ⟨true, 127⟩
    ∧ (async_turn_on (some 20) (some 230) true ⟨false, 0⟩
        ⟨none, none, some 50, none⟩).2 =
      [ProxyEvent.service_call "light" "turn_on" (some 125) none,
       ProxyEvent.set_local true 127,
       ProxyEvent.write_state]
    ∧ virtual_to_actual 127 (some 20) (some 230) = 125 := by
  refine ⟨by decide, by decide, by decide, by decide⟩

/-- C8: within one `turn_on` call an absolute brightness sets the baseline and
a relative step is applied on top of it (`brightness=100, brightness_step=10`
yields 110 whatever the prior state), and `brightness_step` takes precedence
over `brightness_step_pct`: with a step present, the percent field is
ignored entirely. -/
theorem C8_precedence (s : ProxyState) (b : Option Int) (st : Int)
    (p1 p2 tr1 tr2 : Option Int) :
    turn_on_v s ⟨some 100, some 10, p1, tr1⟩ = 110
    ∧ turn_on_v s ⟨b, some st, p1, tr1⟩ = turn_on_v s ⟨b, some st, p2, tr2⟩ := by
  constructor <;> rfl

/-- C9 (counterexample): the transform can yield 0 for a nonzero clamped
virtual value — `virtual_to_actual(1)` with default bounds is 0 although the
clamped input is 1, refuting "can only happen if v == 0". -/
theorem C9_counterexample :
    virtual_to_actual 1 none none = 0 ∧ clamp_0_255 1 ≠ 0 := by
  constructor <;> decide

/-- C9 (amended): the brightness sent by a `turn_on` command is never 0 (the
code floors the transform result at 1), and the transform yields 0 only when
the clamped virtual value is 0 or the resolved low bound is 0. -/
theorem C9_amended (llv hld : Option Int) (s : ProxyState) (k : TurnOnKwargs)
    (v : Int) (hz : virtual_to_actual v llv hld = 0) :
    1 ≤ turn_on_a llv hld s k
    ∧ (clamp_0_255 v = 0 ∨ (normalize_bounds llv hld).1 = 0) := by
  constructor
  · simp only [turn_on_a]
    split_ifs with h
    · exact le_rfl
    · omega
  · by_cases h0 : clamp_0_255 v = 0
    · exact Or.inl h0
    · right
      by_cases h255 : clamp_0_255 v = 255
      · exfalso
        rw [v2a_clamp, h255] at hz
        have h5 : virtual_to_actual ((255 : Nat) : Int) llv hld = 255 := by
          rw [show ((255 : Nat) : Int) = (255 : Int) by norm_cast]
          rfl
        rw [h5] at hz
        exact absurd hz (by decide)
      · have hc0 : 0 < clamp_0_255 v := by omega
        have hc255 : clamp_0_255 v < 255 := by
          have := clamp_0_255_le v
          omega
        rw [v2a_clamp, v2a_interior llv hld (clamp_0_255 v) hc0 hc255] at hz
        have hlt := normalize_bounds_lt llv hld
        have hle := normalize_bounds_le llv hld
        omega

/-- Witness for C9 (amended) at `v = 1` with default bounds. -/
theorem C9_amended_witness :
    1 ≤ turn_on_a none none ⟨false, 0⟩ ⟨none, none, none, none⟩
    ∧ (clamp_0_255 1 = 0 ∨ (normalize_bounds none none).1 = 0) :=
  C9_amended none none ⟨false, 0⟩ ⟨none, none, none, none⟩ 1 (by decide)

/-!
Embedding of `config_flow._parse_level`.  The input space is modelled by the
cases the Python function distinguishes: `None`, a string ending in `%` (with
its float-parsed percentage, or `none` when parsing fails), any other string
(with its float-parsed value, or `none`), a numeric value, and any other
type.  Parsed numeric payloads are modelled as exact rationals; non-finite
float parses (`"inf"`, `"nan"`) are outside this model.
-/

inductive LevelInput where
  | absent
  | pctStr (pct : Option Rat)
  | numStr (v : Option Rat)
  | numVal (v : Rat)
  | otherType

/-- Python `round` (half-to-even) on a rational. -/
def pyRoundQ (q : Rat) : Int :=
  if q - ⌊q⌋ < 1 / 2 then ⌊q⌋
  else if 1 / 2 < q - ⌊q⌋ then ⌊q⌋ + 1
  else if ⌊q⌋ % 2 = 0 then ⌊q⌋ else ⌊q⌋ + 1

/-- The inner `clamp255` of `_parse_level` on a successfully parsed number:
`max(0.0, min(255.0, n))` followed by `int(round(n))` with Python's
half-even rounding. -/
def parse_clamp255 (q : Rat) : Int := pyRoundQ (max 0 (min 255 q))

/-- `config_flow._parse_level`: percent-marked strings are accepted only for
percentages in `[0,100]`; plain numeric inputs in `[0,100]` are interpreted
as percentages and scaled by `255/100`, larger ones are taken raw and
clamped; unparsable strings, `None` and non-numeric types yield `None`. -/
def parse_level : LevelInput → Option Int
  | LevelInput.absent => none
  | LevelInput.pctStr none => none
  | LevelInput.pctStr (some p) =>
      if 0 ≤ p ∧ p ≤ 100 then some (parse_clamp255 (255 * (p / 100))) else none
  | LevelInput.numStr none => none
  | LevelInput.numStr (some v) =>
      if 0 ≤ v ∧ v ≤ 100 then some (parse_clamp255 (255 * (v / 100)))
      else some (parse_clamp255 v)
  | LevelInput.numVal v =>
      if 0 ≤ v ∧ v ≤ 100 then some (parse_clamp255 (255 * (v / 100)))
      else some (parse_clamp255 v)
  | LevelInput.otherType => none

/-- C10: the configuration-level parser resolves the percent-versus-raw
ambiguity as claimed: plain numeric inputs (numbers or non-percent-marked
numeric strings) in `[0,100]` are interpreted exactly as if percent-marked
(so `50` yields `round(255*50/100) = 128`, not `50`); numeric values above
100 are taken raw and clamped (so `204` stays `204` and `300` becomes `255`);
percent-marked strings with a percentage outside `[0,100]`, unparsable
strings, `None` and non-numeric inputs are rejected with `None`. -/
theorem C10_parse_level (v w p : Rat) (h0 : 0 ≤ v) (h100 : v ≤ 100)
    (hw : 100 < w) (hp : p < 0 ∨ 100 < p) :
    parse_level (LevelInput.numVal v) = parse_level (LevelInput.pctStr (some v))
    ∧ parse_level (LevelInput.numStr (some v)) = parse_level (LevelInput.pctStr (some v))
    ∧ parse_level (LevelInput.numVal w) = some (parse_clamp255 w)
    ∧ parse_level (LevelInput.pctStr (some p)) = none
    ∧ parse_level (LevelInput.numVal 50) = some 128
    ∧ parse_level (LevelInput.numVal 204) = some 204
    ∧ parse_level (LevelInput.numVal 300) = some 255
    ∧ parse_level (LevelInput.pctStr none) = none
    ∧ parse_level (LevelInput.numStr none) = none
    ∧ parse_level LevelInput.absent = none
    ∧ parse_level LevelInput.otherType = none := by
  have hcond : 0 ≤ v ∧ v ≤ 100 := ⟨h0, h100⟩
  have hnw : ¬ (0 ≤ w ∧ w ≤ 100) := by
    rintro ⟨-, hcontra⟩
    exact absurd hw (not_lt.mpr hcontra)
  have hnp : ¬ (0 ≤ p ∧ p ≤ 100) := by
    rintro ⟨ha, hb⟩
    rcases hp with hp | hp
    · exact absurd ha (not_le.mpr hp)
    · exact absurd hp (not_lt.mpr hb)
  refine ⟨?_, ?_, ?_, ?_, ?_, ?_, ?_, rfl, rfl, rfl, rfl⟩
  · simp only [parse_level, if_pos hcond]
  · simp only [parse_level, if_pos hcond]
  · simp only [parse_level, if_neg hnw]
  · simp only [parse_level, if_neg hnp]
  · simp only [parse_level]
    rw [if_pos (by norm_num)]
    have hq : (255 * ((50 : Rat) / 100)) = 255 / 2 := by norm_num
    rw [hq]
    unfold parse_clamp255
    rw [min_eq_right (by norm_num : (255 / 2 : Rat) ≤ 255),
      max_eq_right (by norm_num : (0 : Rat) ≤ 255 / 2)]
    have hfl : ⌊(255 / 2 : Rat)⌋ = 127 := by
      rw [Int.floor_eq_iff]
      norm_num
    unfold pyRoundQ
    rw [hfl]
    norm_num
  · simp only [parse_level]
    rw [if_neg (by norm_num)]
    unfold parse_clamp255
    rw [min_eq_right (by norm_num : (204 : Rat) ≤ 255),
      max_eq_right (by norm_num : (0 : Rat) ≤ 204)]
    have hfl : ⌊(204 : Rat)⌋ = 204 := by
      rw [Int.floor_eq_iff]
      norm_num
    unfold pyRoundQ
    rw [hfl]
    norm_num
  · simp only [parse_level]
    rw [if_neg (by norm_num)]
    unfold parse_clamp255
    rw [min_eq_left (by norm_num : (255 : Rat) ≤ 300),
      max_eq_right (by norm_num : (0 : Rat) ≤ 255)]
    have hfl : ⌊(255 : Rat)⌋ = 255 := by
      rw [Int.floor_eq_iff]
      norm_num
    unfold pyRoundQ
    rw [hfl]
    norm_num

/-- Witness for C10 at `v = 30`, `w = 301`, `p = 120`. -/
theorem C10_parse_level_witness :
    parse_level (LevelInput.numVal 30) = parse_level (LevelInput.pctStr (some 30))
    ∧ parse_level (LevelInput.numStr (some 30)) = parse_level (LevelInput.pctStr (some 30))
    ∧ parse_level (LevelInput.numVal 301) = some (parse_clamp255 301)
    ∧ parse_level (LevelInput.pctStr (some 120)) = none
    ∧ parse_level (LevelInput.numVal 50) = some 128
    ∧ parse_level (LevelInput.numVal 204) = some 204
    ∧ parse_level (LevelInput.numVal 300) = some 255
    ∧ parse_level (LevelInput.pctStr none) = none
    ∧ parse_level (LevelInput.numStr none) = none
    ∧ parse_level LevelInput.absent = none
    ∧ parse_level LevelInput.otherType = none :=
  C10_parse_level 30 301 120 (by norm_num) (by norm_num) (by norm_num)
    (Or.inr (by norm_num))
